import Mathlib

/-!
Verification development for the feature-extraction / rule-based prediction
engine (src/services/security/SecurityAuditService.ts, class AdvancedMLPipeline)
and the backtesting engine (src/services/ml/ProfessionalBacktesting.ts).

JavaScript numbers are modelled as rationals: every arithmetic operation the
verified claims touch (+, -, *, /, abs, min, max, comparisons) is exact on the
inputs involved.  Division by zero is never hit on the domains of the stated
theorems.  Transcendental functions (tanh, ln, sqrt) and local-time calendar
decomposition, which only shape the numeric payload of a feature vector and
never the control flow of a verified claim, are abstracted as a parameter
structure JsMath.  JS Math.max spread over a possibly-empty array is modelled
as an Option, with none standing for the -Infinity identity value.
-/

namespace TradingCore

/-- Abstracted real-analytic and calendar primitives of the JS runtime.
tanh, log, sqrt model Math.tanh, Math.log, Math.sqrt; hourOf, dayOf, monthOf
model new Date(ts).getHours(), .getDay(), .getMonth() (timezone dependent). -/
structure JsMath where
  tanh : ℚ → ℚ
  log : ℚ → ℚ
  sqrt : ℚ → ℚ
  hourOf : ℚ → ℚ
  dayOf : ℚ → ℚ
  monthOf : ℚ → ℚ

/-- CandleData (SecurityAuditService.ts lines 511-519).  The JS field open is
spelled open_ because open is a Lean keyword. -/
structure Candle where
  open_ : ℚ
  high : ℚ
  low : ℚ
  close : ℚ
  volume : ℚ
  timestamp : ℚ
  candleIndex : ℚ
deriving DecidableEq

/-- metadata block of FeatureVector (lines 504-508). -/
structure FeatureMeta where
  timestamp : ℚ
  candleIndex : ℚ
  confidence : ℚ
deriving DecidableEq

/-- FeatureVector (lines 499-509).  The four groups are the fixed-shape
numeric arrays produced by extractFeatures (6, 5, 3, 3 entries). -/
structure FeatureVector where
  technicalIndicators : List ℚ
  priceFeatures : List ℚ
  volumeFeatures : List ℚ
  temporalFeatures : List ℚ
  metadata : FeatureMeta
deriving DecidableEq

inductive UpDown | up | down
deriving DecidableEq

/-- The direction/probability/confidence triple returned by
generateRuleBasedPrediction (line 873). -/
structure RulePrediction where
  direction : UpDown
  probability : ℚ
  confidence : ℚ
deriving DecidableEq

/-- arr.reduce((a, b) => a + b, 0). -/
def jsSum (l : List ℚ) : ℚ := l.foldl (· + ·) 0

/-- arr.slice(-k): the last k elements.  JS -0 is 0, so slice(-0) is the
whole array; for k at least the length the whole array is returned too. -/
def jsSliceLast (l : List ℚ) (k : ℕ) : List ℚ :=
  if k = 0 then l else l.drop (l.length - k)

/-- arr.slice(start, stop) for non-negative indices. -/
def jsSlice (l : List Candle) (start stop : ℕ) : List Candle :=
  (l.take stop).drop start

/-- Consecutive differences prices[i] - prices[i-1], for i = 1 .. length-1. -/
def deltas (l : List ℚ) : List ℚ := (l.zip l.tail).map fun p => p.2 - p.1

/-- calculateSMA (lines 901-905). -/
def calculateSMA (prices : List ℚ) (period : ℕ) : ℚ :=
  if prices.length < period then prices.getLastD 0
  else jsSum (jsSliceLast prices period) / period

/-- calculateRSI (lines 907-925): average gain / average loss over the last
period deltas; 100 when the average loss is 0; 50 on insufficient history. -/
def calculateRSI (prices : List ℚ) (period : ℕ) : ℚ :=
  if prices.length < period + 1 then 50
  else
    let changes := deltas prices
    let gains := changes.map fun ch => if ch > 0 then ch else 0
    let losses := changes.map fun ch => if ch < 0 then -ch else 0
    let avgGain := jsSum (jsSliceLast gains period) / period
    let avgLoss := jsSum (jsSliceLast losses period) / period
    if avgLoss = 0 then 100
    else
      let rs := avgGain / avgLoss
      100 - 100 / (1 + rs)

/-- calculateEMA (lines 962-974). -/
def calculateEMA (prices : List ℚ) (period : ℕ) : ℚ :=
  match prices with
  | [] => 0
  | p :: rest =>
    if rest = [] then p
    else
      let multiplier := 2 / ((period : ℚ) + 1)
      rest.foldl (fun ema price => price * multiplier + ema * (1 - multiplier)) p

/-- calculateStandardDeviation (lines 976-984). -/
def calculateStandardDeviation (m : JsMath) (values : List ℚ) : ℚ :=
  if values.length = 0 then 0
  else
    let mean := jsSum values / values.length
    let avgSquaredDiff := jsSum (values.map fun v => (v - mean) ^ 2) / values.length
    m.sqrt avgSquaredDiff

/-- calculateBollingerPosition (lines 927-936). -/
def calculateBollingerPosition (m : JsMath) (prices : List ℚ) (period : ℕ) : ℚ :=
  if prices.length < period then 0
  else
    let sma := calculateSMA prices period
    let std := calculateStandardDeviation m (jsSliceLast prices period)
    let currentPrice := prices.getLastD 0
    if std = 0 then 0 else (currentPrice - sma) / (2 * std)

/-- calculateMACDNormalized (lines 938-946). -/
def calculateMACDNormalized (prices : List ℚ) : ℚ :=
  if prices.length < 26 then 0
  else
    let ema12 := calculateEMA prices 12
    let ema26 := calculateEMA prices 26
    (ema12 - ema26) / ema26

/-- Math.max over a non-empty list, 0 as degenerate default (the degenerate
case is outside every call site of calculateStochastic). -/
def listMaxD (l : List ℚ) : ℚ := l.foldl max (l.headD 0)

/-- Math.min over a non-empty list, 0 as degenerate default. -/
def listMinD (l : List ℚ) : ℚ := l.foldl min (l.headD 0)

/-- calculateStochastic (lines 948-960). -/
def calculateStochastic (highs lows closes : List ℚ) (period : ℕ) : ℚ :=
  if highs.length < period then 50
  else
    let periodHighs := jsSliceLast highs period
    let periodLows := jsSliceLast lows period
    let currentClose := closes.getLastD 0
    let highestHigh := listMaxD periodHighs
    let lowestLow := listMinD periodLows
    if highestHigh = lowestLow then 50
    else (currentClose - lowestLow) / (highestHigh - lowestLow) * 100

/-- calculateLinearRegressionSlope (lines 986-1001). -/
def calculateLinearRegressionSlope (values : List ℚ) : ℚ :=
  if values.length < 2 then 0
  else
    let n : ℚ := values.length
    let xValues : List ℚ := (List.range values.length).map fun i => (i : ℚ)
    let sumX := jsSum xValues
    let sumY := jsSum values
    let sumXY := jsSum ((xValues.zip values).map fun p => p.1 * p.2)
    let sumXX := jsSum (xValues.map fun x => x * x)
    let denominator := n * sumXX - sumX * sumX
    if denominator = 0 then 0 else (n * sumXY - sumX * sumY) / denominator

/-- calculateCorrelation (lines 1003-1025). -/
def calculateCorrelation (m : JsMath) (x y : List ℚ) : ℚ :=
  if x.length ≠ y.length ∨ x.length = 0 then 0
  else
    let n : ℚ := x.length
    let meanX := jsSum x / n
    let meanY := jsSum y / n
    let pairs := x.zip y
    let numerator := jsSum (pairs.map fun p => (p.1 - meanX) * (p.2 - meanY))
    let sumXSquared := jsSum (pairs.map fun p => (p.1 - meanX) * (p.1 - meanX))
    let sumYSquared := jsSum (pairs.map fun p => (p.2 - meanY) * (p.2 - meanY))
    let denominator := m.sqrt (sumXSquared * sumYSquared)
    if denominator = 0 then 0 else numerator / denominator

/-- calculateTechnicalIndicators (lines 641-675). -/
def calculateTechnicalIndicators (m : JsMath) (candles : List Candle) : List ℚ :=
  let closes := candles.map (·.close)
  let highs := candles.map (·.high)
  let lows := candles.map (·.low)
  let sma5 := calculateSMA closes 5
  let sma10 := calculateSMA closes 10
  let smaRatio := sma5 / sma10
  let rsi := calculateRSI closes 14 / 100
  let bbPosition := calculateBollingerPosition m closes 20
  let macd := calculateMACDNormalized closes
  let stochastic := calculateStochastic highs lows closes 14 / 100
  let currentPrice := closes.getLastD 0
  let priceVsSMA := (currentPrice - sma10) / sma10
  [m.tanh (smaRatio - 1), rsi, bbPosition, m.tanh macd, stochastic,
    m.tanh (priceVsSMA * 10)]

/-- calculatePriceFeatures (lines 680-723). -/
def calculatePriceFeatures (m : JsMath) (candles : List Candle) : List ℚ :=
  let pairs := candles.zip candles.tail
  let returns := pairs.map fun p => m.log (p.2.close / p.1.close)
  let bodyRatios := pairs.map fun p =>
    let bodySize := |p.2.close - p.2.open_|
    let totalRange := p.2.high - p.2.low
    if totalRange > 0 then bodySize / totalRange else 0
  let shadowRatios := pairs.map fun p =>
    let totalRange := p.2.high - p.2.low
    let upperShadow := p.2.high - max p.2.open_ p.2.close
    let lowerShadow := min p.2.open_ p.2.close - p.2.low
    if totalRange > 0 then (upperShadow - lowerShadow) / totalRange else 0
  let returnsMean := if returns.length > 0 then jsSum returns / returns.length else 0
  let returnsStd := calculateStandardDeviation m returns
  let bodyRatioMean := if bodyRatios.length > 0 then jsSum bodyRatios / bodyRatios.length else 0
  let shadowRatioMean := if shadowRatios.length > 0 then jsSum shadowRatios / shadowRatios.length else 0
  let recentReturns := jsSliceLast returns 3
  let momentum := if recentReturns.length > 0 then jsSum recentReturns else 0
  [m.tanh (returnsMean * 100), m.tanh (returnsStd * 10), bodyRatioMean,
    m.tanh shadowRatioMean, m.tanh (momentum * 50)]

/-- calculateVolumeFeatures (lines 728-750). -/
def calculateVolumeFeatures (m : JsMath) (candles : List Candle) : List ℚ :=
  let volumes := candles.map (·.volume)
  let volumeMean := jsSum volumes / volumes.length
  let currentVolume := volumes.getLastD 0
  let volumeRatio := if volumeMean > 0 then currentVolume / volumeMean else 1
  let volumeTrend := calculateLinearRegressionSlope volumes
  let priceVolCorrelation := calculateCorrelation m (candles.map (·.close)) volumes
  [m.tanh (m.log volumeRatio), m.tanh (volumeTrend * 10), m.tanh priceVolCorrelation]

/-- calculateTemporalFeatures (lines 755-768). -/
def calculateTemporalFeatures (m : JsMath) (candle : Candle) : List ℚ :=
  [m.hourOf candle.timestamp / 23, m.dayOf candle.timestamp / 6,
    m.monthOf candle.timestamp / 11]

/-- calculateFeatureConfidence (lines 879-898). -/
def calculateFeatureConfidence (candles : List Candle) : ℚ :=
  if candles.length < 5 then 0.1
  else
    let confidence := (candles.zip candles.tail).foldl
      (fun confidence p =>
        let gap := |p.2.open_ - p.1.close| / p.1.close
        let confidence := if gap > 0.05 then confidence * 0.8 else confidence
        if p.2.volume = 0 then confidence * 0.9 else confidence)
      0.8
    max 0.1 confidence

/-- extractFeatures (lines 597-636).  Failure (the JS throw of the
insufficient-data Error) is modelled as Except.error, which the callers of
the source function propagate unchanged. -/
def extractFeatures (m : JsMath) (candles : List Candle) (currentIndex : ℕ) :
    Except String FeatureVector :=
  let lookback := min 20 candles.length
  let relevantCandles := jsSlice candles (currentIndex - lookback) (currentIndex + 1)
  if relevantCandles.length < 3 then
    Except.error "Insufficient data for feature extraction"
  else
    let currentCandle := relevantCandles.getLastD
      { open_ := 0, high := 0, low := 0, close := 0, volume := 0, timestamp := 0,
        candleIndex := 0 }
    Except.ok
      { technicalIndicators := calculateTechnicalIndicators m relevantCandles
        priceFeatures := calculatePriceFeatures m relevantCandles
        volumeFeatures := calculateVolumeFeatures m relevantCandles
        temporalFeatures := calculateTemporalFeatures m currentCandle
        metadata :=
          { timestamp := currentCandle.timestamp
            candleIndex := currentCandle.candleIndex
            confidence := calculateFeatureConfidence relevantCandles } }

/-- Value of a hexadecimal digit character, none for a non-digit. -/
def hexDigitVal (c : Char) : Option ℕ :=
  if '0' ≤ c ∧ c ≤ '9' then some (c.toNat - 48)
  else if 'a' ≤ c ∧ c ≤ 'f' then some (c.toNat - 87)
  else if 'A' ≤ c ∧ c ≤ 'F' then some (c.toNat - 55)
  else none

/-- parseInt(s, 16): value of the longest hexadecimal-digit prefix of s,
none (the JS NaN outcome) when s does not start with a hex digit.  Leading
whitespace, sign and 0x handling are irrelevant for the UUID-like seeds the
source feeds in and are not modelled. -/
def parseIntHex (s : String) : Option ℕ :=
  let ds := (s.toList.takeWhile fun c => (hexDigitVal c).isSome).map
    fun c => (hexDigitVal c).getD 0
  if ds = [] then none else some (ds.foldl (fun a d => 16 * a + d) 0)

/-- The controlled random term of line 861:
(parseInt(seed.slice(0, 8), 16) / 0xffffffff - 0.5) * 0.1.
none models the NaN-poisoned outcome for a seed without a hex prefix. -/
def seedFactor (seed : String) : Option ℚ :=
  (parseIntHex (seed.take 8)).map fun v => ((v : ℚ) / 4294967295 - 0.5) * 0.1

/-- The scalar score accumulated by generateRuleBasedPrediction
(lines 826-852) before the seed-derived random term is added. -/
def ruleScoreBase (f : FeatureVector) : ℚ :=
  let rsi := f.technicalIndicators.getD 1 0
  let bbPosition := f.technicalIndicators.getD 2 0
  let macd := f.technicalIndicators.getD 3 0
  let stochastic := f.technicalIndicators.getD 4 0
  let momentum := f.priceFeatures.getD 4 0
  let score : ℚ := 0
  let score := if rsi < 0.3 then score + 0.3 else score
  let score := if rsi > 0.7 then score - 0.3 else score
  let score := if bbPosition < -0.8 then score + 0.2 else score
  let score := if bbPosition > 0.8 then score - 0.2 else score
  let score := score + macd * 0.25
  let score := if stochastic < 0.2 then score + 0.15 else score
  let score := if stochastic > 0.8 then score - 0.15 else score
  score + momentum * 0.3

/-- The volume-confirmation increment of lines 854-858: when the pre-random
score exceeds 0.1 in magnitude, 0.2 * |volumeFeatures[0]| is added to the
local confidence accumulator.  In the source this accumulator is then
unconditionally overwritten by the assignment at lines 869-871, so the
increment never reaches the returned confidence. -/
def volumeConfirmationTerm (f : FeatureVector) : ℚ :=
  let volumeRatio := f.volumeFeatures.getD 0 0
  if |ruleScoreBase f| > 0.1 then |volumeRatio| * 0.2 else 0

/-- generateRuleBasedPrediction (lines 822-874).  none models the nowhere
reachable NaN-poisoned result for a seed whose first characters are not hex
digits (the source always passes a UUID). -/
def generateRuleBasedPrediction (f : FeatureVector) (seed : String) :
    Option RulePrediction :=
  (seedFactor seed).map fun randomFactor =>
    let score := ruleScoreBase f + randomFactor
    { direction := if score > 0 then UpDown.up else UpDown.down
      probability := max 0.5 (min 0.95 (0.5 + |score|))
      confidence :=
        max 0.1 (min 0.95 (0.5 + |score| * 0.5 + f.metadata.confidence * 0.3)) }

/-! ## Backtesting engine (src/services/ml/ProfessionalBacktesting.ts)

The class fields (currentCapital, peakCapital, trades, openTrades,
equityCurve) become an explicit state record threaded through the per-candle
step.  SecureRandom.uuid trade identifiers are modelled by a fresh-counter
field: the only property the source relies on is distinctness. -/

/-- BacktestConfig (ProfessionalBacktesting.ts lines 11-21). -/
structure BacktestConfig where
  initialCapital : ℚ
  positionSize : ℚ
  commission : ℚ
  slippage : ℚ
  maxDrawdown : ℚ
  maxConcurrentTrades : ℕ
  riskFreeRate : ℚ
deriving DecidableEq

inductive TradeDir | long | short
deriving DecidableEq

/-- The status field of a Trade; open is a Lean keyword, hence open_. -/
inductive TradeStatus | open_ | closed
deriving DecidableEq

/-- The PredictionResult fields the backtester reads (direction at line 242,
confidence at lines 199 and 212). -/
structure BTPrediction where
  direction : UpDown
  probability : ℚ
  confidence : ℚ
deriving DecidableEq

/-- Trade (lines 23-38). -/
structure Trade where
  id : ℕ
  entryTime : ℚ
  exitTime : Option ℚ
  entryPrice : ℚ
  exitPrice : Option ℚ
  direction : TradeDir
  quantity : ℚ
  commission : ℚ
  slippage : ℚ
  pnl : Option ℚ
  pnlPercentage : Option ℚ
  status : TradeStatus
  prediction : BTPrediction
deriving DecidableEq

/-- One entry of the equity curve (line 67). -/
structure EquityPoint where
  timestamp : ℚ
  equity : ℚ
  drawdown : ℚ
deriving DecidableEq

/-- The mutable instance state of class ProfessionalBacktesting
(lines 91-96), plus the fresh-identifier counter. -/
structure BTState where
  currentCapital : ℚ
  peakCapital : ℚ
  trades : List Trade
  openTrades : List Trade
  equityCurve : List EquityPoint
  nextId : ℕ
deriving DecidableEq

/-- The state reset performed at the top of runBacktest (lines 119-126). -/
def initState (cfg : BacktestConfig) : BTState :=
  { currentCapital := cfg.initialCapital
    peakCapital := cfg.initialCapital
    trades := []
    openTrades := []
    equityCurve := []
    nextId := 0 }

/-- getCurrentDrawdown (lines 430-433). -/
def getCurrentDrawdown (st : BTState) : ℚ :=
  if st.peakCapital = 0 then 0
  else (st.peakCapital - st.currentCapital) / st.peakCapital

/-- isMarketVolatile (lines 438-442). -/
def isMarketVolatile (c : Candle) : Bool :=
  (c.high - c.low) / c.close > 0.02

/-- shouldEnterTrade (lines 197-216). -/
def shouldEnterTrade (cfg : BacktestConfig) (st : BTState) (p : BTPrediction)
    (c : Candle) : Bool :=
  if p.confidence < 0.6 then false
  else if st.openTrades.length ≥ cfg.maxConcurrentTrades then false
  else if st.currentCapital * cfg.positionSize < 100 then false
  else if getCurrentDrawdown st > cfg.maxDrawdown * 0.8 then false
  else if isMarketVolatile c then p.confidence > 0.8
  else true

/-- calculateEntryPrice (lines 372-380). -/
def calculateEntryPrice (cfg : BacktestConfig) (c : Candle) (dir : UpDown) : ℚ :=
  let basePrice := c.open_
  let slippageAmount := basePrice * cfg.slippage
  match dir with
  | UpDown.up => basePrice + slippageAmount
  | UpDown.down => basePrice - slippageAmount

/-- calculateExitPrice (lines 385-393). -/
def calculateExitPrice (cfg : BacktestConfig) (c : Candle) (dir : TradeDir) : ℚ :=
  let basePrice := c.close
  let slippageAmount := basePrice * cfg.slippage
  match dir with
  | TradeDir.long => basePrice - slippageAmount
  | TradeDir.short => basePrice + slippageAmount

/-- enterTrade (lines 221-262): only the entry commission and slippage are
debited from capital; the notional itself is not. -/
def enterTrade (cfg : BacktestConfig) (st : BTState) (p : BTPrediction)
    (nextCandle : Candle) : BTState :=
  let positionValue := st.currentCapital * cfg.positionSize
  let entryPrice := calculateEntryPrice cfg nextCandle p.direction
  let quantity := positionValue / entryPrice
  let commission := positionValue * cfg.commission
  let slippage := positionValue * cfg.slippage
  let totalCosts := commission + slippage
  let trade : Trade :=
    { id := st.nextId
      entryTime := nextCandle.timestamp
      exitTime := none
      entryPrice := entryPrice
      exitPrice := none
      direction := if p.direction = UpDown.up then TradeDir.long else TradeDir.short
      quantity := quantity
      commission := commission
      slippage := slippage
      pnl := none
      pnlPercentage := none
      status := TradeStatus.open_
      prediction := p }
  { st with
      currentCapital := st.currentCapital - totalCosts
      openTrades := st.openTrades ++ [trade]
      nextId := st.nextId + 1 }

/-- closeTrade (lines 324-367). -/
def closeTrade (cfg : BacktestConfig) (st : BTState) (t : Trade) (candle : Candle) :
    BTState :=
  let exitPrice := calculateExitPrice cfg candle t.direction
  let priceChange :=
    match t.direction with
    | TradeDir.long => exitPrice - t.entryPrice
    | TradeDir.short => t.entryPrice - exitPrice
  let grossPnL := priceChange * t.quantity
  let positionValue := t.quantity * exitPrice
  let exitCommission := positionValue * cfg.commission
  let exitSlippage := positionValue * cfg.slippage
  let totalExitCosts := exitCommission + exitSlippage
  let netPnL := grossPnL - totalExitCosts
  let pnlPercentage := netPnL / (t.quantity * t.entryPrice)
  let closedT : Trade :=
    { t with
        exitTime := some candle.timestamp
        exitPrice := some exitPrice
        pnl := some netPnL
        pnlPercentage := some pnlPercentage
        commission := t.commission + exitCommission
        slippage := t.slippage + exitSlippage
        status := TradeStatus.closed }
  let newCapital := st.currentCapital + positionValue + netPnL
  { st with
      currentCapital := newCapital
      peakCapital := max st.peakCapital newCapital
      openTrades := st.openTrades.filter fun x => x.id ≠ t.id
      trades := st.trades ++ [closedT] }

/-- The per-trade exit reasons of processExitSignals; noExit models the
initial empty-string reason of a trade that stays open. -/
inductive ExitReason | noExit | timeLimit | stopLoss | profitTarget | trailingStop
deriving DecidableEq

/-- The shouldClose / exitReason pair computed for one open trade by the loop
body of processExitSignals (lines 270-313), including the trailing-stop block
at lines 301-308 which compares priceChange against priceChange * 0.5. -/
def evalExit (t : Trade) (currentCandle : Candle) : Bool × ExitReason :=
  let tradeDuration := currentCandle.timestamp - t.entryTime
  let maxDuration : ℚ := 24 * 60 * 60 * 1000
  let r : Bool × ExitReason := (false, ExitReason.noExit)
  let r := if tradeDuration > maxDuration then (true, ExitReason.timeLimit) else r
  let currentPrice := currentCandle.close
  let priceChange :=
    match t.direction with
    | TradeDir.long => (currentPrice - t.entryPrice) / t.entryPrice
    | TradeDir.short => (t.entryPrice - currentPrice) / t.entryPrice
  let stopLoss : ℚ := -0.02
  let profitTarget : ℚ := 0.04
  let r :=
    if priceChange ≤ stopLoss then (true, ExitReason.stopLoss)
    else if priceChange ≥ profitTarget then (true, ExitReason.profitTarget)
    else r
  if priceChange > 0.01 then
    let trailingStop := priceChange * 0.5
    if priceChange < trailingStop then (true, ExitReason.trailingStop) else r
  else r

/-- processExitSignals (lines 267-319): decide on every open trade against
the current candle, then close the selected trades at the next candle. -/
def processExitSignals (cfg : BacktestConfig) (st : BTState)
    (currentCandle nextCandle : Candle) : BTState :=
  let tradesToClose := st.openTrades.filter fun t => (evalExit t currentCandle).1
  tradesToClose.foldl (fun s t => closeTrade cfg s t nextCandle) st

/-- updateEquityCurve (lines 408-425); the unrealized PnL of open positions
is hardcoded to 0 in the source. -/
def updateEquityCurve (st : BTState) (timestamp : ℚ) : BTState :=
  let totalEquity := st.currentCapital
  let drawdown :=
    if st.peakCapital > 0 then (st.peakCapital - totalEquity) / st.peakCapital else 0
  { st with
      equityCurve := st.equityCurve ++
        [{ timestamp := timestamp, equity := totalEquity, drawdown := drawdown }] }

/-- The body of one iteration of the runBacktest loop (lines 137-152):
exits, then the entry decision, then the equity-curve append. -/
def stepCandle (cfg : BacktestConfig) (x : BTPrediction × Candle × Candle)
    (st : BTState) : BTState :=
  let p := x.1
  let currentCandle := x.2.1
  let nextCandle := x.2.2
  let st := processExitSignals cfg st currentCandle nextCandle
  let st :=
    if shouldEnterTrade cfg st p currentCandle then enterTrade cfg st p nextCandle
    else st
  updateEquityCurve st currentCandle.timestamp

/-- The runBacktest loop (lines 137-161) with its drawdown circuit breaker:
after each candle, if the current drawdown exceeds maxDrawdown the remaining
candles are not processed. -/
def runLoop (cfg : BacktestConfig) :
    List (BTPrediction × Candle × Candle) → BTState → BTState
  | [], st => st
  | x :: rest, st =>
    let st := stepCandle cfg x st
    if getCurrentDrawdown st > cfg.maxDrawdown then st else runLoop cfg rest st

/-- closeAllTrades (lines 398-403). -/
def closeAllTrades (cfg : BacktestConfig) (st : BTState) (lastCandle : Candle) :
    BTState :=
  st.openTrades.foldl (fun s t => closeTrade cfg s t lastCandle) st

/-- The (prediction, candles[i], candles[i+1]) triples visited by the loop
index range i < predictions.length and i < candles.length - 1. -/
def backtestItems (candles : List Candle) (predictions : List BTPrediction) :
    List (BTPrediction × Candle × Candle) :=
  predictions.zip (candles.zip candles.tail)

/-- runBacktest (lines 110-192) up to report generation: reset state, run the
loop, then close every remaining open trade at the last input candle. -/
def runBacktestState (cfg : BacktestConfig) (candles : List Candle)
    (predictions : List BTPrediction) : BTState :=
  let st := runLoop cfg (backtestItems candles predictions) (initState cfg)
  match candles.getLast? with
  | some lastCandle => closeAllTrades cfg st lastCandle
  | none => st

/-- Math.max(...xs) over a possibly-empty array: none is the -Infinity
returned on an empty spread. -/
def jsMaxQ (l : List ℚ) : Option ℚ :=
  l.foldl (fun acc x => match acc with | none => some x | some m => some (max m x)) none

/-- The fields of BacktestResults (lines 40-74) referenced by the verified
claims.  maxDrawdown and maxDrawdownPercentage are Option valued because the
source computes them with Math.max over the possibly-empty equity curve:
none models the -Infinity of an empty run (for maxDrawdown, -Infinity times
a positive initialCapital stays -Infinity).  The fields built from square
roots of returns (Sharpe, Sortino, volatility and the var/beta block) are
not referenced by any claim and are omitted. -/
structure BacktestResults where
  totalTrades : ℕ
  winningTrades : ℕ
  losingTrades : ℕ
  winRate : ℚ
  totalPnL : ℚ
  totalPnLPercentage : ℚ
  finalCapital : ℚ
  maxDrawdown : Option ℚ
  maxDrawdownPercentage : Option ℚ
  calmarRatio : ℚ
  recoveryFactor : ℚ
  totalCommissions : ℚ
  totalSlippage : ℚ
  trades : List Trade
  equityCurve : List EquityPoint
deriving DecidableEq

/-- calculateBacktestResults (lines 447-526), restricted to the fields above.
t.pnl.getD 0 renders the JS (t.pnl || 0); the bang-dereferences t.pnl! of the
win/loss filters compare identically since every ledger trade is closed with
pnl populated. -/
def calculateBacktestResults (cfg : BacktestConfig) (st : BTState) :
    BacktestResults :=
  let closedTrades := st.trades.filter fun t => t.status = TradeStatus.closed
  let winningTrades := closedTrades.filter fun t => t.pnl.getD 0 > 0
  let losingTrades := closedTrades.filter fun t => t.pnl.getD 0 ≤ 0
  let totalPnL := jsSum (closedTrades.map fun t => t.pnl.getD 0)
  let totalPnLPercentage := totalPnL / cfg.initialCapital
  let winRate :=
    if closedTrades.length > 0 then (winningTrades.length : ℚ) / closedTrades.length
    else 0
  let maxDrawdownPct := jsMaxQ (st.equityCurve.map (·.drawdown))
  let ratioOf : Option ℚ → ℚ := fun d =>
    match d with
    | some d => if d > 0 then totalPnLPercentage / d else 0
    | none => 0
  { totalTrades := closedTrades.length
    winningTrades := winningTrades.length
    losingTrades := losingTrades.length
    winRate := winRate
    totalPnL := totalPnL
    totalPnLPercentage := totalPnLPercentage
    finalCapital := st.currentCapital
    maxDrawdown := maxDrawdownPct.map fun d => d * cfg.initialCapital
    maxDrawdownPercentage := maxDrawdownPct
    calmarRatio := ratioOf maxDrawdownPct
    recoveryFactor := ratioOf maxDrawdownPct
    totalCommissions := jsSum (closedTrades.map (·.commission))
    totalSlippage := jsSum (closedTrades.map (·.slippage))
    trades := closedTrades
    equityCurve := st.equityCurve }

/-- runBacktest composed with report generation. -/
def runBacktest (cfg : BacktestConfig) (candles : List Candle)
    (predictions : List BTPrediction) : BacktestResults :=
  calculateBacktestResults cfg (runBacktestState cfg candles predictions)

/-! ## Verified claims -/

/-- C3 (code_bug): the trailing-stop block of processExitSignals compares the
current favorable excursion priceChange against priceChange * 0.5: for any
priceChange > 0.01 that comparison is unsatisfiable, so no evaluation of an
open trade ever yields the trailing-stop exit reason.  This contradicts the
claim that a trade is closed once the current change drops below 50 percent
of the peak-observed change (the source tracks no peak at all). -/
theorem trailing_stop_unreachable :
    ∀ (t : Trade) (c : Candle), (evalExit t c).2 ≠ ExitReason.trailingStop := by
  intro t c
  simp only [evalExit]
  split
  case isTrue h01 =>
    split
    case isTrue hlt =>
      exfalso
      set pc :=
        (match t.direction with
          | TradeDir.long => (c.close - t.entryPrice) / t.entryPrice
          | TradeDir.short => (t.entryPrice - c.close) / t.entryPrice) with hpc
      have : (0.01 : ℚ) < pc := h01
      have : pc < pc * 0.5 := hlt
      linarith
    case isFalse _ => split_ifs <;> simp
  case isFalse _ => split_ifs <;> simp

/-- C8: the rule-based scorer is a pure function of the feature vector and
the seed; the only seed dependence is the perturbation derived from the
first 8 characters, so any two seeds agreeing on those characters (in
particular two identical seeds) produce identical direction, probability and
confidence. -/
theorem scorer_deterministic :
    ∀ (f : FeatureVector) (s₁ s₂ : String), s₁.take 8 = s₂.take 8 →
      generateRuleBasedPrediction f s₁ = generateRuleBasedPrediction f s₂ := by
  intro f s₁ s₂ h
  unfold generateRuleBasedPrediction seedFactor
  rw [h]

/-- Witness for scorer_deterministic at a concrete feature vector and two
seeds sharing their first 8 characters. -/
theorem scorer_deterministic_witness :
    generateRuleBasedPrediction
        { technicalIndicators := [0, 0.5, 0, 0, 0.5, 0]
          priceFeatures := [0, 0, 0, 0, 1]
          volumeFeatures := [0.5, 0, 0]
          temporalFeatures := [0, 0, 0]
          metadata := { timestamp := 0, candleIndex := 0, confidence := 0.5 } }
        "00ff00ff-aaaa" =
      generateRuleBasedPrediction
        { technicalIndicators := [0, 0.5, 0, 0, 0.5, 0]
          priceFeatures := [0, 0, 0, 0, 1]
          volumeFeatures := [0.5, 0, 0]
          temporalFeatures := [0, 0, 0]
          metadata := { timestamp := 0, candleIndex := 0, confidence := 0.5 } }
        "00ff00ffzz" :=
  scorer_deterministic _ _ _ (by decide)

/-- Concrete feature vector exercising the volume-confirmation branch:
pre-random score 0.3 (momentum 1), volume-ratio feature 0.5, data-quality
confidence 0.5. -/
def fB : FeatureVector :=
  { technicalIndicators := [0, 0.5, 0, 0, 0.5, 0]
    priceFeatures := [0, 0, 0, 0, 1]
    volumeFeatures := [0.5, 0, 0]
    temporalFeatures := [0, 0, 0]
    metadata := { timestamp := 0, candleIndex := 0, confidence := 0.5 } }

/-- C2 (counterexample): with seed 00000000 the random factor is -0.05, the
score is 0.25 (so its magnitude exceeds 0.1 and the volume-confirmation
branch runs with term 0.1), yet the returned confidence is the plain
clamp(0.5 + 0.5 * 0.25 + 0.3 * 0.5) = 0.775, not the volume-blended
clamp(... + 0.2 * 0.5) = 0.875: the blended value the claim asserts differs
from what the scorer returns. -/
theorem volume_confirmation_discarded_cx :
    seedFactor "00000000" = some (-0.05) ∧
    ruleScoreBase fB = 0.3 ∧
    volumeConfirmationTerm fB = 0.1 ∧
    generateRuleBasedPrediction fB "00000000" =
      some { direction := UpDown.up, probability := 0.75, confidence := 0.775 } ∧
    (0.775 : ℚ) ≠
      max 0.1 (min 0.95
        (0.5 + |(0.3 : ℚ) + -0.05| * 0.5 + 0.5 * 0.3 + 0.2 * |(0.5 : ℚ)|)) := by
  have hp : parseIntHex ("00000000".take 8) = some 0 := by decide
  have hseed : seedFactor "00000000" = some (-0.05) := by
    simp [seedFactor, hp]
    norm_num
  have hbase : ruleScoreBase fB = 0.3 := by
    norm_num [ruleScoreBase, fB]
  refine ⟨hseed, hbase, ?_, ?_, ?_⟩
  · simp only [volumeConfirmationTerm]
    rw [hbase]
    simp only [fB]
    norm_num [abs_eq_max_neg, max_def]
  · unfold generateRuleBasedPrediction
    rw [hseed]
    simp only [Option.map_some']
    rw [hbase]
    have hmc : fB.metadata.confidence = 0.5 := by norm_num [fB]
    rw [hmc]
    norm_num [abs_eq_max_neg, min_def, max_def]
  · norm_num [abs_eq_max_neg, min_def, max_def]

/-- C2 (amended): the returned confidence always equals
clamp(0.5 + 0.5 * |score| + 0.3 * metadata.confidence, 0.1, 0.95); the
volume-confirmation increment of lines 854-858 is overwritten by the final
assignment and never contributes — the whole output is independent of the
volume features. -/
theorem confidence_formula_no_volume :
    (∀ (f : FeatureVector) (s : String),
        (generateRuleBasedPrediction f s).map (·.confidence) =
          (seedFactor s).map fun randomFactor =>
            max 0.1 (min 0.95
              (0.5 + |ruleScoreBase f + randomFactor| * 0.5 +
                f.metadata.confidence * 0.3))) ∧
    (∀ (f : FeatureVector) (vf : List ℚ) (s : String),
        generateRuleBasedPrediction { f with volumeFeatures := vf } s =
          generateRuleBasedPrediction f s) := by
  constructor
  · intro f s
    cases h : seedFactor s <;> simp [generateRuleBasedPrediction, h]
  · intro f vf s
    cases f
    rfl

/-- Concrete entry state sitting exactly on the drawdown boundary: peak
10000, capital 8000, so the current drawdown 0.2 equals 0.8 * maxDrawdown
for maxDrawdown = 0.25 (both sides exactly representable as doubles too). -/
def cfgD : BacktestConfig :=
  { initialCapital := 10000, positionSize := 0.02, commission := 0.001,
    slippage := 0.0005, maxDrawdown := 0.25, maxConcurrentTrades := 5,
    riskFreeRate := 0.02 }

def stD : BTState :=
  { currentCapital := 8000, peakCapital := 10000, trades := [], openTrades := [],
    equityCurve := [], nextId := 0 }

def pD : BTPrediction := { direction := UpDown.up, probability := 0.7, confidence := 0.7 }

def cD : Candle :=
  { open_ := 100, high := 100.5, low := 99.5, close := 100, volume := 100,
    timestamp := 0, candleIndex := 0 }

/-- C4 (counterexample): at a run state whose drawdown is exactly
0.8 * maxDrawdown, shouldEnterTrade still returns true (the source rejects
only on a strict excess), while the claim requires drawdown strictly below
0.8 * maxDrawdown for a trade to open. -/
theorem entry_drawdown_boundary_cx :
    shouldEnterTrade cfgD stD pD cD = true ∧
    ¬(getCurrentDrawdown stD < 0.8 * cfgD.maxDrawdown) := by
  constructor
  · norm_num [shouldEnterTrade, getCurrentDrawdown, isMarketVolatile, cfgD, stD, pD, cD]
  · norm_num [getCurrentDrawdown, cfgD, stD]

/-- C4 (amended): a trade opens at a candle step exactly when
confidence at least 0.6, open-trade count below maxConcurrentTrades,
position value at least 100, drawdown at most (not strictly below)
0.8 * maxDrawdown, and confidence above 0.8 on a volatile candle; the second
conjunct ties the characterization to the loop body, whose entry phase runs
on the post-exit state. -/
theorem entry_conditions_characterization :
    (∀ (cfg : BacktestConfig) (st : BTState) (p : BTPrediction) (c : Candle),
        shouldEnterTrade cfg st p c = true ↔
          (0.6 ≤ p.confidence ∧
           st.openTrades.length < cfg.maxConcurrentTrades ∧
           100 ≤ st.currentCapital * cfg.positionSize ∧
           getCurrentDrawdown st ≤ 0.8 * cfg.maxDrawdown ∧
           (isMarketVolatile c = true → 0.8 < p.confidence))) ∧
    (∀ (cfg : BacktestConfig) (p : BTPrediction) (c n : Candle) (st : BTState),
        (stepCandle cfg (p, c, n) st).openTrades.length =
          (processExitSignals cfg st c n).openTrades.length +
            (if shouldEnterTrade cfg (processExitSignals cfg st c n) p c then 1 else 0)) := by
  constructor
  · intro cfg st p c
    unfold shouldEnterTrade
    split_ifs with h1 h2 h3 h4 h5
    · simp only [Bool.false_eq_true, false_iff]
      rintro ⟨hc, -⟩
      linarith
    · simp only [Bool.false_eq_true, false_iff]
      rintro ⟨-, hn, -⟩
      omega
    · simp only [Bool.false_eq_true, false_iff]
      rintro ⟨-, -, hv, -⟩
      linarith
    · simp only [Bool.false_eq_true, false_iff]
      rintro ⟨-, -, -, hd, -⟩
      rw [mul_comm] at hd
      linarith
    · rw [decide_eq_true_iff]
      constructor
      · intro hconf
        exact ⟨by linarith, by omega, by linarith, by rw [mul_comm]; linarith,
          fun _ => hconf⟩
      · rintro ⟨-, -, -, -, hvol⟩
        exact hvol h5
    · simp only [true_iff]
      exact ⟨by linarith, by omega, by linarith, by rw [mul_comm]; linarith,
        fun hv => absurd hv (by simp [h5])⟩
  · intro cfg p c n st
    simp only [stepCandle, updateEquityCurve]
    split
    · simp [enterTrade]
    · simp

lemma foldl_add_eq_of_zero : ∀ (l : List ℚ) (a : ℚ), (∀ x ∈ l, x = 0) → l.foldl (· + ·) a = a := by
  intro l
  induction l with
  | nil => intro a _; rfl
  | cons x xs ih =>
    intro a h
    have hx : x = 0 := h x (by simp)
    simp only [List.foldl_cons]
    rw [hx, add_zero]
    exact ih a fun y hy => h y (by simp [hy])

lemma jsSum_zero (l : List ℚ) (h : ∀ x ∈ l, x = 0) : jsSum l = 0 :=
  foldl_add_eq_of_zero l 0 h

/-- C7: for a positive period, a constant-price series of length at least
period + 1 has all-zero deltas, hence average loss 0, and calculateRSI takes
the average-loss-zero branch returning 100 (not the neutral 50); any series
shorter than period + 1 returns the insufficient-history value 50. -/
theorem rsi_degenerate_branches :
    ∀ (period : ℕ) (prices : List ℚ) (c : ℚ), 0 < period →
      ((∀ x ∈ prices, x = c) → period + 1 ≤ prices.length →
          calculateRSI prices period = 100) ∧
      (prices.length < period + 1 → calculateRSI prices period = 50) := by
  intro period prices c hper
  constructor
  · intro hconst hlen
    have hch : ∀ x ∈ deltas prices, x = (0 : ℚ) := by
      intro x hx
      simp only [deltas, List.mem_map] at hx
      obtain ⟨⟨a, b⟩, hp, rfl⟩ := hx
      have hmem := List.of_mem_zip hp
      have ha := hconst a hmem.1
      have hb := hconst b (List.tail_subset _ hmem.2)
      simp [ha, hb]
    have hloss : ∀ x ∈ (deltas prices).map (fun ch => if ch < 0 then -ch else 0),
        x = (0 : ℚ) := by
      intro x hx
      obtain ⟨ch, hch2, rfl⟩ := List.mem_map.mp hx
      rw [hch ch hch2]
      norm_num
    have hslice : ∀ x ∈ jsSliceLast ((deltas prices).map fun ch => if ch < 0 then -ch else 0) period,
        x = (0 : ℚ) := by
      intro x hx
      apply hloss
      unfold jsSliceLast at hx
      split at hx
      · exact hx
      · exact List.drop_subset _ _ hx
    have h0 : jsSum (jsSliceLast ((deltas prices).map fun ch => if ch < 0 then -ch else 0) period)
        / (period : ℚ) = 0 := by
      rw [jsSum_zero _ hslice, zero_div]
    simp only [calculateRSI]
    rw [if_neg (by omega)]
    rw [h0]
    simp
  · intro h
    simp only [calculateRSI]
    rw [if_pos h]

/-- Witness for rsi_degenerate_branches: the constant series of fifteen 5s
gives RSI 100 at period 14, while fourteen samples give the neutral 50. -/
theorem rsi_degenerate_branches_witness :
    calculateRSI (List.replicate 15 (5 : ℚ)) 14 = 100 ∧
    calculateRSI (List.replicate 14 (5 : ℚ)) 14 = 50 :=
  ⟨(rsi_degenerate_branches 14 (List.replicate 15 (5 : ℚ)) 5 (by norm_num)).1
      (by intro x hx; exact List.eq_of_mem_replicate hx) (by simp),
   (rsi_degenerate_branches 14 (List.replicate 14 (5 : ℚ)) 5 (by norm_num)).2 (by simp)⟩

/-- C6: with a valid current index, extractFeatures raises the
insufficient-data error exactly when the lookback window — the last
min(20, candles.length) candles ending at currentIndex — holds fewer than 3
candles, and returns a feature vector exactly otherwise; the Except value
models the JS throw that propagates to the caller. -/
theorem insufficient_data_iff :
    ∀ (m : JsMath) (candles : List Candle) (i : ℕ), i < candles.length →
      (((∃ e, extractFeatures m candles i = Except.error e) ↔
          min (i + 1) (min 20 candles.length) < 3) ∧
       ((∃ fv, extractFeatures m candles i = Except.ok fv) ↔
          3 ≤ min (i + 1) (min 20 candles.length))) := by
  intro m candles i hi
  have hlen : (jsSlice candles (i - min 20 candles.length) (i + 1)).length
      = min (i + 1) candles.length - (i - min 20 candles.length) := by
    simp [jsSlice]
  by_cases h3 : (jsSlice candles (i - min 20 candles.length) (i + 1)).length < 3
  · have he : extractFeatures m candles i =
        Except.error "Insufficient data for feature extraction" := by
      simp only [extractFeatures]
      rw [if_pos h3]
    have hc : min (i + 1) (min 20 candles.length) < 3 := by omega
    constructor
    · exact iff_of_true ⟨_, he⟩ hc
    · refine iff_of_false ?_ (by omega)
      rintro ⟨fv, hfv⟩
      rw [he] at hfv
      simp at hfv
  · have hok : ∃ fv, extractFeatures m candles i = Except.ok fv := by
      simp only [extractFeatures]
      rw [if_neg h3]
      exact ⟨_, rfl⟩
    have hc : 3 ≤ min (i + 1) (min 20 candles.length) := by omega
    constructor
    · refine iff_of_false ?_ (by omega)
      rintro ⟨e, he⟩
      obtain ⟨fv, hfv⟩ := hok
      rw [hfv] at he
      simp at he
    · exact iff_of_true hok hc

/-- Trivial instantiation of the abstracted runtime primitives, used only to
instantiate witnesses. -/
def mW : JsMath :=
  { tanh := fun q => q, log := fun q => q, sqrt := fun q => q,
    hourOf := fun q => q, dayOf := fun q => q, monthOf := fun q => q }

def candlesW : List Candle :=
  [{ open_ := 1, high := 1, low := 1, close := 1, volume := 1, timestamp := 0, candleIndex := 0 },
   { open_ := 1, high := 1, low := 1, close := 1, volume := 1, timestamp := 1, candleIndex := 1 }]

/-- Witness for insufficient_data_iff: a 2-candle series at index 1 has a
2-candle window and fails with the insufficient-data error. -/
theorem insufficient_data_iff_witness :
    ∃ e, extractFeatures mW candlesW 1 = Except.error e :=
  ((insufficient_data_iff mW candlesW 1 (by norm_num [candlesW])).1).mpr
    (by norm_num [candlesW])

/-- C10: a run that processes no candle (empty prediction series, or fewer
than 2 candles) produces an empty equity curve, so the report computes
Math.max over an empty drawdown list: maxDrawdownPercentage is none (the
model of -Infinity), and maxDrawdown — that value times the positive initial
capital — is none as well, not the guarded neutral 0 used by the ratio
fields. -/
theorem empty_run_drawdown_neg_infinity :
    ∀ (cfg : BacktestConfig) (candles : List Candle) (preds : List BTPrediction),
      (preds = [] ∨ candles.length < 2) → 0 < cfg.initialCapital →
      (runBacktest cfg candles preds).equityCurve = [] ∧
      (runBacktest cfg candles preds).maxDrawdownPercentage = none ∧
      (runBacktest cfg candles preds).maxDrawdown = none := by
  intro cfg candles preds h hcap
  have hitems : backtestItems candles preds = [] := by
    rcases h with h | h
    · simp [backtestItems, h]
    · have hl : (candles.zip candles.tail).length = 0 := by
        rw [List.length_zip, List.length_tail]
        omega
      have hz : candles.zip candles.tail = [] := List.eq_nil_of_length_eq_zero hl
      simp [backtestItems, hz]
  have hstate : runBacktestState cfg candles preds = initState cfg := by
    unfold runBacktestState
    rw [hitems]
    simp only [runLoop]
    cases hc : candles.getLast? with
    | none => rfl
    | some lastC => simp [closeAllTrades, initState]
  refine ⟨?_, ?_, ?_⟩ <;>
    simp [runBacktest, hstate, calculateBacktestResults, initState, jsMaxQ]

/-- Default-like config with positive initial capital for the C10 witness. -/
def cfgZ : BacktestConfig :=
  { initialCapital := 10000, positionSize := 0.02, commission := 0.001,
    slippage := 0.0005, maxDrawdown := 0.2, maxConcurrentTrades := 5,
    riskFreeRate := 0.02 }

/-- Single candle for the C10 witness (one candle means no loop iteration). -/
def candleZ : Candle :=
  { open_ := 1, high := 1, low := 1, close := 1, volume := 1, timestamp := 0,
    candleIndex := 0 }

/-- Witness for empty_run_drawdown_neg_infinity: one candle, no predictions. -/
theorem empty_run_drawdown_neg_infinity_witness :
    (runBacktest cfgZ [candleZ] []).equityCurve = [] ∧
    (runBacktest cfgZ [candleZ] []).maxDrawdownPercentage = none ∧
    (runBacktest cfgZ [candleZ] []).maxDrawdown = none :=
  empty_run_drawdown_neg_infinity cfgZ [candleZ] [] (Or.inl rfl) (by norm_num [cfgZ])

/-- Every trade present after folding closeTrade over a list was either
already in the ledger or was closed at the given candle. -/
lemma mem_foldl_closeTrade (cfg : BacktestConfig) (cnd : Candle) :
    ∀ (l : List Trade) (st : BTState) (t : Trade),
      t ∈ (l.foldl (fun s u => closeTrade cfg s u cnd) st).trades →
      t ∈ st.trades ∨ t.exitTime = some cnd.timestamp := by
  intro l
  induction l with
  | nil => intro st t h; exact Or.inl h
  | cons u us ih =>
    intro st t h
    rcases ih (closeTrade cfg st u cnd) t h with h1 | h1
    · simp only [closeTrade, List.mem_append, List.mem_singleton] at h1
      rcases h1 with h2 | h2
      · exact Or.inl h2
      · right
        rw [h2]
    · exact Or.inr h1

/-- C5 (amended): once the drawdown after a candle exceeds maxDrawdown the
loop returns immediately (no further candle is processed), and every trade
the end-of-run closeAllTrades adds to the ledger is stamped with the
timestamp of the LAST candle of the input series — not the halt candle. -/
theorem halt_stops_processing_close_at_last :
    (∀ (cfg : BacktestConfig) (x : BTPrediction × Candle × Candle)
        (rest : List (BTPrediction × Candle × Candle)) (st : BTState),
        getCurrentDrawdown (stepCandle cfg x st) > cfg.maxDrawdown →
        runLoop cfg (x :: rest) st = stepCandle cfg x st) ∧
    (∀ (cfg : BacktestConfig) (st : BTState) (lastCandle : Candle) (t : Trade),
        t ∈ (closeAllTrades cfg st lastCandle).trades →
        t ∈ st.trades ∨ t.exitTime = some lastCandle.timestamp) := by
  constructor
  · intro cfg x rest st h
    simp only [runLoop]
    rw [if_pos h]
  · intro cfg st lastCandle t h
    exact mem_foldl_closeTrade cfg lastCandle st.openTrades st t h

/-- Config with a tiny drawdown limit so that the very first entry costs
trip the circuit breaker. -/
def cfgE : BacktestConfig :=
  { initialCapital := 10000, positionSize := 0.02, commission := 0.001,
    slippage := 0.0005, maxDrawdown := 1 / 100000, maxConcurrentTrades := 5,
    riskFreeRate := 0.02 }

def mkCandleE (o h l c ts : ℚ) : Candle :=
  { open_ := o, high := h, low := l, close := c, volume := 100, timestamp := ts,
    candleIndex := 0 }

def candlesE : List Candle :=
  [mkCandleE 100 100.5 99.5 100 0, mkCandleE 100 100.5 99.5 100 1000,
   mkCandleE 100 100.5 99.5 100 2000, mkCandleE 100 100.5 99.5 100 3000]

def predsE : List BTPrediction :=
  [{ direction := UpDown.up, probability := 0.9, confidence := 0.9 },
   { direction := UpDown.up, probability := 0.9, confidence := 0.9 }]

/-- C5 (counterexample): with the tiny drawdown limit the run halts after
candle 0 of 4 (only one of the two loop items is processed, one equity point
at timestamp 0), yet the force-closed trade carries exitTime 3000 — the last
input candle — while the halt candle has timestamp 0. -/
theorem halt_close_not_at_halt_candle_cx :
    (backtestItems candlesE predsE).length = 2 ∧
    (runBacktestState cfgE candlesE predsE).equityCurve.map (·.timestamp) = [0] ∧
    (runBacktestState cfgE candlesE predsE).trades.map (·.exitTime) = [some 3000] ∧
    ((3000 : ℚ) ≠ 0) := by
  refine ⟨by norm_num [backtestItems, candlesE, predsE, mkCandleE], ?_, ?_, by norm_num⟩ <;>
    norm_num [runBacktestState, runLoop, stepCandle, processExitSignals, closeTrade,
      closeAllTrades, enterTrade, shouldEnterTrade, getCurrentDrawdown, isMarketVolatile,
      updateEquityCurve, calculateEntryPrice, calculateExitPrice, evalExit, backtestItems,
      initState, cfgE, candlesE, predsE, mkCandleE]

/-- A closed ledger trade for the witness state. -/
def tZ : Trade :=
  { id := 0, entryTime := 0, exitTime := some 3000, entryPrice := 100,
    exitPrice := some 100, direction := TradeDir.long, quantity := 1,
    commission := 0, slippage := 0, pnl := some 0, pnlPercentage := some 0,
    status := TradeStatus.closed,
    prediction := { direction := UpDown.up, probability := 0.9, confidence := 0.9 } }

def stZ : BTState :=
  { currentCapital := 10000, peakCapital := 10000, trades := [tZ], openTrades := [],
    equityCurve := [], nextId := 1 }

/-- Witness for halt_stops_processing_close_at_last at the concrete halting
run and at a concrete closeAllTrades state. -/
theorem halt_stops_processing_close_at_last_witness :
    (runLoop cfgE (backtestItems candlesE predsE) (initState cfgE) =
      stepCandle cfgE ({ direction := UpDown.up, probability := 0.9, confidence := 0.9 },
        mkCandleE 100 100.5 99.5 100 0, mkCandleE 100 100.5 99.5 100 1000)
        (initState cfgE)) ∧
    (tZ ∈ stZ.trades ∨ tZ.exitTime = some (mkCandleE 100 100.5 99.5 100 3000).timestamp) := by
  constructor
  · have hitems : backtestItems candlesE predsE =
        ({ direction := UpDown.up, probability := 0.9, confidence := 0.9 },
          mkCandleE 100 100.5 99.5 100 0, mkCandleE 100 100.5 99.5 100 1000) ::
        [({ direction := UpDown.up, probability := 0.9, confidence := 0.9 },
          mkCandleE 100 100.5 99.5 100 1000, mkCandleE 100 100.5 99.5 100 2000)] := by
      norm_num [backtestItems, candlesE, predsE]
    rw [hitems]
    exact halt_stops_processing_close_at_last.1 cfgE _ _ _ (by
      norm_num [stepCandle, processExitSignals, closeTrade, enterTrade, shouldEnterTrade,
        getCurrentDrawdown, isMarketVolatile, updateEquityCurve, calculateEntryPrice,
        evalExit, initState, cfgE, mkCandleE])
  · exact halt_stops_processing_close_at_last.2 cfgE stZ (mkCandleE 100 100.5 99.5 100 3000)
      tZ (by simp [closeAllTrades, stZ])

/-- Default config for the C1 run. -/
def cfgA : BacktestConfig :=
  { initialCapital := 10000, positionSize := 0.02, commission := 0.001,
    slippage := 0.0005, maxDrawdown := 0.2, maxConcurrentTrades := 5,
    riskFreeRate := 0.02 }

/-- Three-candle series: entry fires at candle 0 (fill at candle 1), the run
completes with no halt, and the trade is force-closed at candle 2. -/
def candlesA : List Candle :=
  [mkCandleE 100 100.5 99.5 100 0, mkCandleE 100 100.5 99.5 100 1000,
   mkCandleE 104 104.5 103.5 104 2000]

def predsA : List BTPrediction :=
  [{ direction := UpDown.up, probability := 0.9, confidence := 0.9 },
   { direction := UpDown.up, probability := 0.5, confidence := 0.5 }]

/-- C1 (code_bug): a complete no-halt run with exactly one round-trip trade
and nothing nominally open, whose final capital nonetheless differs from
initialCapital + total pnl - total commissions - total slippage: enterTrade
debits only the entry costs (line 251) while closeTrade credits the full
exit notional quantity * exitPrice on top of the net pnl (line 354), so the
books gain the notional of every closed trade (here roughly 208 on 10000
initial; final capital is 5110040003/500250 versus the conserved value
5005936081/500250). -/
theorem capital_not_conserved :
    (backtestItems candlesA predsA).length = 2 ∧
    (runBacktest cfgA candlesA predsA).equityCurve.length = 2 ∧
    (runBacktestState cfgA candlesA predsA).openTrades = [] ∧
    (runBacktest cfgA candlesA predsA).totalTrades = 1 ∧
    (runBacktest cfgA candlesA predsA).finalCapital ≠
      cfgA.initialCapital + (runBacktest cfgA candlesA predsA).totalPnL -
        (runBacktest cfgA candlesA predsA).totalCommissions -
        (runBacktest cfgA candlesA predsA).totalSlippage := by
  norm_num [runBacktest, runBacktestState, runLoop, stepCandle, processExitSignals,
    closeTrade, closeAllTrades, enterTrade, shouldEnterTrade, getCurrentDrawdown,
    isMarketVolatile, updateEquityCurve, calculateEntryPrice, calculateExitPrice,
    evalExit, backtestItems, initState, calculateBacktestResults, jsSum, jsMaxQ,
    cfgA, candlesA, predsA, mkCandleE]

/-- Run-state invariant: trade identifiers are unique across the open set
and the closed ledger (in particular the two are disjoint), open trades are
in status open, ledger trades in status closed, and every identifier is
below the fresh counter. -/
def InvBT (st : BTState) : Prop :=
  ((st.openTrades ++ st.trades).map Trade.id).Nodup ∧
  (∀ t ∈ st.openTrades, t.status = TradeStatus.open_) ∧
  (∀ t ∈ st.trades, t.status = TradeStatus.closed) ∧
  (∀ t ∈ st.openTrades ++ st.trades, t.id < st.nextId)

lemma initState_inv (cfg : BacktestConfig) : InvBT (initState cfg) := by
  simp [InvBT, initState]

lemma closeTrade_open_eq (cfg : BacktestConfig) (st : BTState) (t : Trade) (cnd : Candle) :
    (closeTrade cfg st t cnd).openTrades = st.openTrades.filter fun x => x.id ≠ t.id := rfl

lemma closeTrade_nextId_eq (cfg : BacktestConfig) (st : BTState) (t : Trade) (cnd : Candle) :
    (closeTrade cfg st t cnd).nextId = st.nextId := rfl

lemma closeTrade_trades_shape (cfg : BacktestConfig) (st : BTState) (t : Trade) (cnd : Candle) :
    ∃ t2, (closeTrade cfg st t cnd).trades = st.trades ++ [t2] ∧ t2.id = t.id ∧
      t2.status = TradeStatus.closed ∧ t2.exitTime = some cnd.timestamp :=
  ⟨_, rfl, rfl, rfl, rfl⟩

lemma closeTrade_inv (cfg : BacktestConfig) (cnd : Candle) (st : BTState) (t : Trade)
    (hInv : InvBT st) (ht : t ∈ st.openTrades) :
    InvBT (closeTrade cfg st t cnd) := by
  obtain ⟨hnd, hopen, hclosed, hbound⟩ := hInv
  rw [List.map_append, List.nodup_append] at hnd
  obtain ⟨hndO, hndT, hdisj⟩ := hnd
  have htid : t.id ∈ st.openTrades.map Trade.id := List.mem_map_of_mem _ ht
  have htidT : t.id ∉ st.trades.map Trade.id := hdisj htid
  have hsubF : List.Sublist (st.openTrades.filter fun x => x.id ≠ t.id) st.openTrades :=
    List.filter_sublist _
  have hndF : ((st.openTrades.filter fun x => x.id ≠ t.id).map Trade.id).Nodup :=
    (hsubF.map Trade.id).nodup hndO
  have hFne : ∀ y ∈ (st.openTrades.filter fun x => x.id ≠ t.id).map Trade.id,
      y ≠ t.id := by
    intro y hy
    obtain ⟨x, hx, rfl⟩ := List.mem_map.mp hy
    have := (List.mem_filter.mp hx).2
    simpa using this
  obtain ⟨t2, htr, ht2id, ht2st, ht2time⟩ := closeTrade_trades_shape cfg st t cnd
  refine ⟨?_, ?_, ?_, ?_⟩
  · rw [closeTrade_open_eq, htr, List.map_append, List.nodup_append]
    refine ⟨hndF, ?_, ?_⟩
    · rw [List.map_append, List.nodup_append]
      refine ⟨hndT, List.nodup_singleton _, ?_⟩
      intro a haT hasingle
      simp only [List.map_cons, List.map_nil, List.mem_singleton] at hasingle
      subst hasingle
      rw [ht2id] at haT
      exact htidT haT
    · intro a haF haRest
      rw [List.map_append, List.mem_append] at haRest
      rcases haRest with haT | hasingle
      · have haO : a ∈ st.openTrades.map Trade.id :=
          (hsubF.map Trade.id).subset haF
        exact hdisj haO haT
      · simp only [List.map_cons, List.map_nil, List.mem_singleton] at hasingle
        subst hasingle
        exact hFne _ haF ht2id
  · intro x hx
    rw [closeTrade_open_eq] at hx
    exact hopen x (List.mem_filter.mp hx).1
  · intro x hx
    rw [htr] at hx
    rcases List.mem_append.mp hx with hxT | hxNew
    · exact hclosed x hxT
    · rw [List.mem_singleton.mp hxNew]
      exact ht2st
  · intro x hx
    rw [closeTrade_nextId_eq]
    rw [closeTrade_open_eq, htr] at hx
    rcases List.mem_append.mp hx with hxF | hxR
    · exact hbound x (List.mem_append.mpr (Or.inl (List.mem_filter.mp hxF).1))
    · rcases List.mem_append.mp hxR with hxT | hxNew
      · exact hbound x (List.mem_append.mpr (Or.inr hxT))
      · rw [List.mem_singleton.mp hxNew, ht2id]
        exact hbound t (List.mem_append.mpr (Or.inl ht))

lemma enterTrade_inv (cfg : BacktestConfig) (p : BTPrediction) (n : Candle)
    (st : BTState) (hInv : InvBT st) : InvBT (enterTrade cfg st p n) := by
  obtain ⟨hnd, hopen, hclosed, hbound⟩ := hInv
  rw [List.map_append, List.nodup_append] at hnd
  obtain ⟨hndO, hndT, hdisj⟩ := hnd
  have hONew : st.nextId ∉ st.openTrades.map Trade.id := by
    intro hmem
    obtain ⟨x, hx, hxid⟩ := List.mem_map.mp hmem
    have := hbound x (List.mem_append.mpr (Or.inl hx))
    omega
  have hTNew : st.nextId ∉ st.trades.map Trade.id := by
    intro hmem
    obtain ⟨x, hx, hxid⟩ := List.mem_map.mp hmem
    have := hbound x (List.mem_append.mpr (Or.inr hx))
    omega
  refine ⟨?_, ?_, ?_, ?_⟩
  · show (((st.openTrades ++ [_]) ++ st.trades).map Trade.id).Nodup
    rw [List.map_append, List.map_append, List.nodup_append]
    refine ⟨?_, hndT, ?_⟩
    · rw [List.nodup_append]
      refine ⟨hndO, List.nodup_singleton _, ?_⟩
      intro a haO hasingle
      simp only [List.map_cons, List.map_nil, List.mem_singleton] at hasingle
      subst hasingle
      exact hONew haO
    · intro a ha haT
      rw [List.mem_append] at ha
      rcases ha with haO | hasingle
      · exact hdisj haO haT
      · simp only [List.map_cons, List.map_nil, List.mem_singleton] at hasingle
        subst hasingle
        exact hTNew haT
  · intro x hx
    rcases List.mem_append.mp hx with hxO | hxNew
    · exact hopen x hxO
    · rw [List.mem_singleton.mp hxNew]
  · intro x hx
    exact hclosed x hx
  · intro x hx
    show x.id < st.nextId + 1
    rcases List.mem_append.mp hx with hxO | hxT
    · rcases List.mem_append.mp hxO with hxO2 | hxNew
      · have := hbound x (List.mem_append.mpr (Or.inl hxO2))
        omega
      · rw [List.mem_singleton.mp hxNew]
        show st.nextId < st.nextId + 1
        omega
    · have := hbound x (List.mem_append.mpr (Or.inr hxT))
      omega

lemma foldClose_inv (cfg : BacktestConfig) (cnd : Candle) :
    ∀ (l : List Trade) (st : BTState), InvBT st → (∀ u ∈ l, u ∈ st.openTrades) →
      (l.map Trade.id).Nodup →
      InvBT (l.foldl (fun s u => closeTrade cfg s u cnd) st) ∧
      ∃ l2, (l.foldl (fun s u => closeTrade cfg s u cnd) st).trades = st.trades ++ l2 := by
  intro l
  induction l with
  | nil => intro st hInv _ _; exact ⟨hInv, [], by simp⟩
  | cons u us ih =>
    intro st hInv hmem hnd
    have hu : u ∈ st.openTrades := hmem u (by simp)
    have hInv2 : InvBT (closeTrade cfg st u cnd) := closeTrade_inv cfg cnd st u hInv hu
    have hmem2 : ∀ v ∈ us, v ∈ (closeTrade cfg st u cnd).openTrades := by
      intro v hv
      rw [closeTrade_open_eq, List.mem_filter]
      refine ⟨hmem v (by simp [hv]), ?_⟩
      simp only [List.map_cons, List.nodup_cons] at hnd
      have : v.id ∈ us.map Trade.id := List.mem_map_of_mem _ hv
      have hne : v.id ≠ u.id := fun h => hnd.1 (h ▸ this)
      simpa using hne
    have hnd2 : (us.map Trade.id).Nodup := by
      simp only [List.map_cons, List.nodup_cons] at hnd
      exact hnd.2
    obtain ⟨hInv3, l2, hl2⟩ := ih (closeTrade cfg st u cnd) hInv2 hmem2 hnd2
    obtain ⟨t2, htr, -, -, -⟩ := closeTrade_trades_shape cfg st u cnd
    refine ⟨hInv3, t2 :: l2, ?_⟩
    simp only [List.foldl_cons] at hl2 ⊢
    rw [hl2, htr, List.append_assoc]
    rfl

lemma processExit_inv (cfg : BacktestConfig) (st : BTState) (c n : Candle)
    (hInv : InvBT st) :
    InvBT (processExitSignals cfg st c n) ∧
    ∃ l2, (processExitSignals cfg st c n).trades = st.trades ++ l2 := by
  have hndO : (st.openTrades.map Trade.id).Nodup := by
    have := hInv.1
    rw [List.map_append, List.nodup_append] at this
    exact this.1
  have hsub : List.Sublist (st.openTrades.filter fun t => (evalExit t c).1) st.openTrades :=
    List.filter_sublist _
  exact foldClose_inv cfg n _ st hInv
    (fun u hu => (List.mem_filter.mp hu).1)
    ((hsub.map Trade.id).nodup hndO)

lemma updateEquity_inv (st : BTState) (ts : ℚ) (hInv : InvBT st) :
    InvBT (updateEquityCurve st ts) := hInv

lemma stepCandle_inv (cfg : BacktestConfig) (x : BTPrediction × Candle × Candle)
    (st : BTState) (hInv : InvBT st) :
    InvBT (stepCandle cfg x st) ∧
    ∃ l, (stepCandle cfg x st).trades = st.trades ++ l := by
  obtain ⟨hInv1, l1, hl1⟩ := processExit_inv cfg st x.2.1 x.2.2 hInv
  by_cases he : shouldEnterTrade cfg (processExitSignals cfg st x.2.1 x.2.2) x.1 x.2.1
  · have hInv2 := enterTrade_inv cfg x.1 x.2.2 _ hInv1
    refine ⟨?_, l1, ?_⟩
    · show InvBT (updateEquityCurve _ _)
      simp only [stepCandle, he, if_true]
      exact updateEquity_inv _ _ hInv2
    · simp only [stepCandle, he, if_true]
      show (enterTrade cfg (processExitSignals cfg st x.2.1 x.2.2) x.1 x.2.2).trades =
        st.trades ++ l1
      rw [show (enterTrade cfg (processExitSignals cfg st x.2.1 x.2.2) x.1 x.2.2).trades =
        (processExitSignals cfg st x.2.1 x.2.2).trades from rfl, hl1]
  · refine ⟨?_, l1, ?_⟩
    · simp only [stepCandle, he, if_false]
      exact updateEquity_inv _ _ hInv1
    · simp only [stepCandle, he, if_false]
      exact hl1

lemma runLoop_inv (cfg : BacktestConfig) :
    ∀ (items : List (BTPrediction × Candle × Candle)) (st : BTState),
      InvBT st → InvBT (runLoop cfg items st) := by
  intro items
  induction items with
  | nil => intro st h; exact h
  | cons x rest ih =>
    intro st h
    have h2 := (stepCandle_inv cfg x st h).1
    simp only [runLoop]
    split
    · exact h2
    · exact ih _ h2

lemma foldClose_drain (cfg : BacktestConfig) (cnd : Candle) :
    ∀ (l : List Trade) (st : BTState), st.openTrades = l → InvBT st →
      (l.foldl (fun s u => closeTrade cfg s u cnd) st).openTrades = [] ∧
      InvBT (l.foldl (fun s u => closeTrade cfg s u cnd) st) := by
  intro l
  induction l with
  | nil => intro st hO hInv; exact ⟨hO, hInv⟩
  | cons u us ih =>
    intro st hO hInv
    have hu : u ∈ st.openTrades := by rw [hO]; simp
    have hInv2 := closeTrade_inv cfg cnd st u hInv hu
    have hndO : (st.openTrades.map Trade.id).Nodup := by
      have := hInv.1
      rw [List.map_append, List.nodup_append] at this
      exact this.1
    have hO2 : (closeTrade cfg st u cnd).openTrades = us := by
      rw [closeTrade_open_eq, hO]
      rw [hO] at hndO
      simp only [List.map_cons, List.nodup_cons] at hndO
      have h1 : (u :: us).filter (fun x => x.id ≠ u.id) =
          us.filter (fun x => x.id ≠ u.id) := by simp
      rw [h1]
      apply List.filter_eq_self.mpr
      intro v hv
      have : v.id ∈ us.map Trade.id := List.mem_map_of_mem _ hv
      have hne : v.id ≠ u.id := fun h => hndO.1 (h ▸ this)
      simpa using hne
    simp only [List.foldl_cons]
    exact ih (closeTrade cfg st u cnd) hO2 hInv2

/-- C9: the reset state satisfies the lifecycle invariant; every per-candle
step preserves it and only ever appends to the closed ledger (so a closed
trade stays closed and, by disjointness at every reachable state, never
reappears among the open trades); and after any complete run the open set is
empty, ledger identifiers are pairwise distinct (each trade is closed
exactly once) and every recorded trade is in status closed. -/
theorem trade_lifecycle_invariant :
    (∀ cfg : BacktestConfig, InvBT (initState cfg)) ∧
    (∀ (cfg : BacktestConfig) (x : BTPrediction × Candle × Candle) (st : BTState),
        InvBT st → InvBT (stepCandle cfg x st) ∧
          ∃ l, (stepCandle cfg x st).trades = st.trades ++ l) ∧
    (∀ (cfg : BacktestConfig) (candles : List Candle) (preds : List BTPrediction),
        (runBacktestState cfg candles preds).openTrades = [] ∧
        ((runBacktestState cfg candles preds).trades.map Trade.id).Nodup ∧
        (∀ t ∈ (runBacktestState cfg candles preds).trades,
          t.status = TradeStatus.closed)) := by
  refine ⟨initState_inv, stepCandle_inv, ?_⟩
  intro cfg candles preds
  have hloop : InvBT (runLoop cfg (backtestItems candles preds) (initState cfg)) :=
    runLoop_inv cfg _ _ (initState_inv cfg)
  have hmain : (runBacktestState cfg candles preds).openTrades = [] ∧
      InvBT (runBacktestState cfg candles preds) := by
    unfold runBacktestState
    cases hc : candles.getLast? with
    | none =>
      have hnil : candles = [] := List.getLast?_eq_none_iff.mp hc
      subst hnil
      have hitems : backtestItems ([] : List Candle) preds = [] := by
        simp [backtestItems]
      rw [hitems]
      exact ⟨rfl, initState_inv cfg⟩
    | some lastC =>
      exact foldClose_drain cfg lastC _ _ rfl hloop
  obtain ⟨hO, hInvF⟩ := hmain
  refine ⟨hO, ?_, hInvF.2.2.1⟩
  have := hInvF.1
  rw [hO] at this
  simpa using this

/-- Config for the C9 witness. -/
def cfgL : BacktestConfig :=
  { initialCapital := 10000, positionSize := 0.02, commission := 0.001,
    slippage := 0.0005, maxDrawdown := 0.2, maxConcurrentTrades := 5,
    riskFreeRate := 0.02 }

/-- One loop item (prediction, current candle, next candle) for the C9
witness. -/
def xL : BTPrediction × Candle × Candle :=
  ({ direction := UpDown.up, probability := 0.9, confidence := 0.9 },
   { open_ := 100, high := 100.5, low := 99.5, close := 100, volume := 100,
     timestamp := 0, candleIndex := 0 },
   { open_ := 100, high := 100.5, low := 99.5, close := 100, volume := 100,
     timestamp := 1000, candleIndex := 1 })

/-- Witness for trade_lifecycle_invariant: the invariant instantiated at a
concrete config, step item and empty run. -/
theorem trade_lifecycle_invariant_witness :
    (InvBT (stepCandle cfgL xL (initState cfgL)) ∧
      ∃ l, (stepCandle cfgL xL (initState cfgL)).trades = (initState cfgL).trades ++ l) ∧
    (runBacktestState cfgL [] []).openTrades = [] :=
  ⟨trade_lifecycle_invariant.2.1 cfgL xL (initState cfgL)
      (trade_lifecycle_invariant.1 cfgL),
   (trade_lifecycle_invariant.2.2 cfgL [] []).1⟩

end TradingCore
